import Mathlib

/-!
dfresh: registry client facade (`app/app.go`)

A shallow embedding of `app/app.go`.  The file under study is a thin facade
over the Docker reference, registry and distribution libraries.  Those
libraries are collaborators: every library function the code calls is a field
of `Env`, an arbitrary function of its arguments and of an abstract world
state `W` (network, configuration files, credential helpers), returning its
Go result tuple together with the next world.  Every invocation of a
collaborator is appended to a call log, so that "is never invoked" is a
statement about the log.

Go specifics kept by the embedding:
* an `error` is `Option GoError`, `nil` being `none`;
* a `*RegistryClient` is `Option RegistryClient`, `nil` being `none`, and a
  field access through a nil pointer is a run-time panic (`none` as the
  outcome of the function);
* a `dist.Repository` interface value is `Option Repository`, and a method
  call on the nil interface is a run-time panic;
* `registry.APIVersion` is an integer type.

`Init` (lines 26-41), which sets the package-level client, is not part of the
embedding: the package-level client is an argument of every function.
-/

namespace Dfresh

/-! ## Data model -/

/-- Go `error` values, identified by their message.  The nil error is `none`
in `Option GoError`. -/
structure GoError where
  msg : String
  deriving DecidableEq, Repr

/-- Go `errors.New`. -/
def errors.New (text : String) : GoError := ⟨text⟩

/-- Library type `digest.Digest`, a Go string type. -/
abbrev Digest := String

/-- The zero value of `digest.Digest` (`var nullDigest digest.Digest`). -/
def nullDigest : Digest := ""

/-- A parsed `reference.Named`.  The type assertion `ref.(reference.Tagged)`
succeeds exactly when `tag` is present, `ref.(reference.Digested)` exactly
when `digest` is present; the library has reference types with neither, with
one of them and with both. -/
structure Reference where
  name : String
  tag : Option String
  digest : Option Digest
  deriving DecidableEq, Repr

/-- Library type `registry.APIVersion`, declared as `type APIVersion int`. -/
abbrev APIVersion := Int

/-- Library constant `registry.APIVersion1`. -/
def APIVersion1 : APIVersion := 1

/-- Library constant `registry.APIVersion2`. -/
def APIVersion2 : APIVersion := 2

/-- Library type `registry.APIEndpoint`; of its fields the code reads
`Version` only, `URL` identifies the server. -/
structure APIEndpoint where
  URL : String
  Version : APIVersion
  deriving DecidableEq, Repr

/-- A `context.Context` handle. -/
abbrev Context := Nat

/-- A `*command.DockerCli` handle. -/
abbrev DockerCli := Nat

/-- Library type `*registrytypes.IndexInfo` (field `Index` of a repository info). -/
abbrev IndexInfo := String

/-- Library type `types.AuthConfig`. -/
abbrev AuthConfig := String

/-- Library type `*registry.RepositoryInfo`, with the two fields the code reads. -/
structure RepositoryInfo where
  Name : Reference
  Index : IndexInfo
  deriving DecidableEq, Repr

/-- A non-nil `dist.Repository` session handle. -/
abbrev Repository := Nat

/-- Library type `dist.Descriptor`. -/
structure Descriptor where
  Digest : Digest
  Size : Int
  deriving DecidableEq, Repr

/-- The struct `RegistryClient` (lines 18-21). -/
structure RegistryClient where
  dockerCli : DockerCli
  ctx : Context
  deriving DecidableEq, Repr

/-! ## Collaborators and the call log -/

/-- One invocation of a library function, with the arguments it was given. -/
inductive Call where
  | ParseNormalizedNamed (s : String)
  | ParseRepositoryInfo (ref : Reference)
  | ResolveAuthConfig (ctx : Context) (cli : DockerCli) (index : IndexInfo)
  | LookupPullEndpoints (domain : String)
  | NewV2Repository (ctx : Context) (repoInfo : RepositoryInfo) (endpoint : APIEndpoint)
      (authConfig : AuthConfig)
  | TagsAll (repository : Repository) (ctx : Context)
  | TagsGet (repository : Repository) (ctx : Context) (tag : String)
  deriving DecidableEq, Repr

/-- The library functions `app.go` calls.  Each takes the world it runs in and
returns its Go results with the world it leaves.  A `(value, error)` result
whose value the code reads only when the error is nil is an `Except`; the two
results the code reads or forwards in full are tuples: the handshake's
`(repository, confirmedV2, err)` and the tag listing's `(tags, err)`.
`Domain` is the pure accessor `reference.Domain`. -/
structure Env (W : Type) where
  ParseNormalizedNamed : String → W → Except GoError Reference × W
  ParseRepositoryInfo : Reference → W → Except GoError RepositoryInfo × W
  ResolveAuthConfig : Context → DockerCli → IndexInfo → W → AuthConfig × W
  Domain : Reference → String
  LookupPullEndpoints : String → W → Except GoError (List APIEndpoint) × W
  NewV2Repository : Context → RepositoryInfo → APIEndpoint → AuthConfig → W →
    (Option Repository × Bool × Option GoError) × W
  TagsAll : Repository → Context → W → (List String × Option GoError) × W
  TagsGet : Repository → Context → String → W → Except GoError Descriptor × W

/-- Execution state: the world the collaborators act on, and the log of the
collaborator invocations made so far, oldest first. -/
structure St (W : Type) where
  world : W
  log : List Call
  deriving DecidableEq

/-- Invoke a collaborator: run it on the current world and log the call. -/
def invoke {W α : Type} (c : Call) (f : W → α × W) (st : St W) : α × St W :=
  ((f st.world).1, ⟨(f st.world).2, st.log ++ [c]⟩)

/-- The loop's acceptance test on a handshake result
`(repository, confirmedV2, err)`: `err == nil && confirmedV2` (line 67). -/
def Accepted (r : Option Repository × Bool × Option GoError) : Prop :=
  r.2.2 = none ∧ r.2.1 = true

instance (r : Option Repository × Bool × Option GoError) : Decidable (Accepted r) := by
  unfold Accepted; infer_instance

/-! ## The code -/

/-- The `for` loop of `newRepository` (lines 62-70) followed by the final
`return nil, errors.New("no V2 endpoint found")` (line 72). -/
def newRepositoryLoop {W : Type} (env : Env W) (ctx : Context) (repoInfo : RepositoryInfo)
    (authConfig : AuthConfig) :
    List APIEndpoint → St W → (Option Repository × Option GoError) × St W
  | [], st => ((none, some (errors.New "no V2 endpoint found")), st)
  | endpoint :: rest, st =>
    if endpoint.Version = APIVersion1 then
      newRepositoryLoop env ctx repoInfo authConfig rest st
    else
      match invoke (Call.NewV2Repository ctx repoInfo endpoint authConfig)
          (env.NewV2Repository ctx repoInfo endpoint authConfig) st with
      | ((repository, confirmedV2, err), st1) =>
        if err = none ∧ confirmedV2 = true then
          ((repository, none), st1)
        else
          newRepositoryLoop env ctx repoInfo authConfig rest st1

/-- The method `(*RegistryClient).newRepository` (lines 43-74).  The receiver
is named `registryClient` in the source and is what the body reads `ctx` and
`dockerCli` from; reading them through a nil receiver panics (line 55), which
happens after `registry.ParseRepositoryInfo` has returned without error.
The debug log entry (lines 50-53) and the construction of the registry
service value (line 56) have no result the code reads and are left out.
The outcome `none` is a panic. -/
def RegistryClient.newRepository {W : Type} (env : Env W) (registryClient : Option RegistryClient)
    (ref : Reference) (st : St W) :
    Option (Option Repository × Option GoError) × St W :=
  match invoke (Call.ParseRepositoryInfo ref) (env.ParseRepositoryInfo ref) st with
  | (Except.error err, st1) => (some (none, some err), st1)
  | (Except.ok repoInfo, st1) =>
    match registryClient with
    | none => (none, st1)
    | some rc =>
      match invoke (Call.ResolveAuthConfig rc.ctx rc.dockerCli repoInfo.Index)
          (env.ResolveAuthConfig rc.ctx rc.dockerCli repoInfo.Index) st1 with
      | (authConfig, st2) =>
        match invoke (Call.LookupPullEndpoints (env.Domain repoInfo.Name))
            (env.LookupPullEndpoints (env.Domain repoInfo.Name)) st2 with
        | (Except.error err, st3) => (some (none, some err), st3)
        | (Except.ok endpoints, st3) =>
          match newRepositoryLoop env rc.ctx repoInfo authConfig endpoints st3 with
          | (r, st4) => (some r, st4)

/-- The method `(*RegistryClient).GetTags` (lines 80-95).  Its receiver is
unnamed in the source and is the argument `_recv` here; `registryClient` in
the body is the package-level variable (line 23), the argument
`registryClient` here.  Reading `registryClient.ctx` (line 89) panics when the
variable is nil, and so does `repository.Tags` (line 94) on a nil repository.
The outcome `none` is a panic. -/
def RegistryClient.GetTags {W : Type} (env : Env W) (registryClient : Option RegistryClient)
    (_recv : Option RegistryClient) (s : String) (st : St W) :
    Option (List String × Option GoError) × St W :=
  match invoke (Call.ParseNormalizedNamed s) (env.ParseNormalizedNamed s) st with
  | (Except.error err, st1) => (some ([], some err), st1)
  | (Except.ok ref, st1) =>
    if ref.tag.isSome then
      (some ([], some (errors.New "reference already has a tag")), st1)
    else
      match registryClient with
      | none => (none, st1)
      | some rc =>
        match RegistryClient.newRepository env registryClient ref st1 with
        | (none, st2) => (none, st2)
        | (some (_, some err), st2) => (some ([], some err), st2)
        | (some (none, none), st2) => (none, st2)
        | (some (some repository, none), st2) =>
          match invoke (Call.TagsAll repository rc.ctx) (env.TagsAll repository rc.ctx) st2 with
          | (r, st3) => (some r, st3)

/-- The package-level function `GetTags` (lines 76-78). -/
def GetTags {W : Type} (env : Env W) (registryClient : Option RegistryClient) (s : String)
    (st : St W) : Option (List String × Option GoError) × St W :=
  RegistryClient.GetTags env registryClient registryClient s st

/-- The method `(*RegistryClient).GetDigest` (lines 101-126); receiver and
package-level variable as in `RegistryClient.GetTags`.  Here `newRepository`
is called (line 116) before `registryClient.ctx` is read (line 120).  The
outcome `none` is a panic. -/
def RegistryClient.GetDigest {W : Type} (env : Env W) (registryClient : Option RegistryClient)
    (_recv : Option RegistryClient) (s : String) (st : St W) :
    Option (Digest × Option GoError) × St W :=
  match invoke (Call.ParseNormalizedNamed s) (env.ParseNormalizedNamed s) st with
  | (Except.error err, st1) => (some (nullDigest, some err), st1)
  | (Except.ok ref, st1) =>
    match ref.digest with
    | some d => (some (d, none), st1)
    | none =>
      let tag := match ref.tag with
        | some t => t
        | none => "latest"
      match RegistryClient.newRepository env registryClient ref st1 with
      | (none, st2) => (none, st2)
      | (some (_, some err), st2) => (some (nullDigest, some err), st2)
      | (some (repository, none), st2) =>
        match registryClient with
        | none => (none, st2)
        | some rc =>
          match repository with
          | none => (none, st2)
          | some repo =>
            match invoke (Call.TagsGet repo rc.ctx tag) (env.TagsGet repo rc.ctx tag) st2 with
            | (Except.error err, st3) => (some (nullDigest, some err), st3)
            | (Except.ok descriptor, st3) => (some (descriptor.Digest, none), st3)

/-- The package-level function `GetDigest` (lines 97-99). -/
def GetDigest {W : Type} (env : Env W) (registryClient : Option RegistryClient) (s : String)
    (st : St W) : Option (Digest × Option GoError) × St W :=
  RegistryClient.GetDigest env registryClient registryClient s st

/-! ## Vocabulary for statements about the call log -/

/-- The calls `newRepository` makes before its loop, in order: repository-info
parsing, credential resolution, endpoint discovery (lines 45-57). -/
def discoveryCalls (rc : RegistryClient) (ref : Reference) (ri : RepositoryInfo)
    (domain : String) : List Call :=
  [Call.ParseRepositoryInfo ref, Call.ResolveAuthConfig rc.ctx rc.dockerCli ri.Index,
    Call.LookupPullEndpoints domain]

/-- The handshake calls on the endpoints of a list that are not v1, in list order. -/
def handshakeCalls (ctx : Context) (ri : RepositoryInfo) (ac : AuthConfig)
    (l : List APIEndpoint) : List Call :=
  (l.filter (fun e => decide (e.Version ≠ APIVersion1))).map
    (fun e => Call.NewV2Repository ctx ri e ac)

/-- Calls on the registry session: the tag listing and the tag lookup. -/
def Call.isSessionQuery : Call → Bool
  | Call.TagsAll _ _ => true
  | Call.TagsGet _ _ _ => true
  | _ => false

/-- Handshake calls. -/
def Call.isHandshake : Call → Bool
  | Call.NewV2Repository _ _ _ _ => true
  | _ => false

/-- The call was given the context of `rc` and, where it takes one, the docker
client of `rc`; calls that take neither satisfy it trivially. -/
def Call.UsesClient (rc : RegistryClient) : Call → Prop
  | Call.ResolveAuthConfig ctx cli _ => ctx = rc.ctx ∧ cli = rc.dockerCli
  | Call.NewV2Repository ctx _ _ _ => ctx = rc.ctx
  | Call.TagsAll _ ctx => ctx = rc.ctx
  | Call.TagsGet _ ctx _ => ctx = rc.ctx
  | _ => True

/-! ## A concrete registry for evaluating the code

The world is the number of collaborator calls made so far; every collaborator
increments it. -/

/-- Toy reference parser: knows a handful of reference strings, rejects the rest. -/
def exParse (s : String) : Except GoError Reference :=
  if s = "library/alpine" then Except.ok ⟨"docker.io/library/alpine", none, none⟩
  else if s = "library/alpine:1.0" then Except.ok ⟨"docker.io/library/alpine", some "1.0", none⟩
  else if s = "library/alpine:3.18" then
    Except.ok ⟨"docker.io/library/alpine", some "3.18", none⟩
  else if s = "library/alpine@sha256:deadbeef" then
    Except.ok ⟨"docker.io/library/alpine", none, some "sha256:deadbeef"⟩
  else if s = "library/alpine:1.0@sha256:deadbeef" then
    Except.ok ⟨"docker.io/library/alpine", some "1.0", some "sha256:deadbeef"⟩
  else if s = "flaky.example.com/app" then Except.ok ⟨"flaky.example.com/app", none, none⟩
  else if s = "empty.example.com/app" then Except.ok ⟨"empty.example.com/app", none, none⟩
  else if s = "silent.example.com/app" then Except.ok ⟨"silent.example.com/app", none, none⟩
  else if s = "down.example.com/app" then Except.ok ⟨"down.example.com/app", none, none⟩
  else if s = "odd.example.com/app" then Except.ok ⟨"odd.example.com/app", none, none⟩
  else Except.error (errors.New "invalid reference format")

/-- Toy `reference.Domain`: the domain part of the names the toy parser produces. -/
def exDomain (ref : Reference) : String :=
  if ref.name = "docker.io/library/alpine" then "docker.io"
  else if ref.name = "flaky.example.com/app" then "flaky.example.com"
  else if ref.name = "empty.example.com/app" then "empty.example.com"
  else if ref.name = "silent.example.com/app" then "silent.example.com"
  else if ref.name = "down.example.com/app" then "down.example.com"
  else "odd.example.com"

/-- Toy endpoint discovery. -/
def exEndpoints (domain : String) : Except GoError (List APIEndpoint) :=
  if domain = "docker.io" then
    Except.ok [⟨"https://v1.docker.io", 1⟩, ⟨"https://unreachable.docker.io", 2⟩,
      ⟨"https://registry-1.docker.io", 2⟩, ⟨"https://mirror.docker.io", 2⟩]
  else if domain = "flaky.example.com" then Except.ok [⟨"https://flaky.example.com", 2⟩]
  else if domain = "empty.example.com" then Except.ok []
  else if domain = "silent.example.com" then
    Except.ok [⟨"https://unreachable.example.com", 2⟩, ⟨"https://silent.example.com", 2⟩]
  else Except.error (errors.New "lookup failed")

/-- Toy handshake, by endpoint URL: unreachable servers give an error, the
silent one answers without confirming v2, every other server confirms. -/
def exHandshake (e : APIEndpoint) : Option Repository × Bool × Option GoError :=
  if e.URL = "https://unreachable.docker.io" ∨ e.URL = "https://unreachable.example.com" then
    (none, false, some (errors.New "connection refused"))
  else if e.URL = "https://silent.example.com" then (some 3, false, none)
  else if e.URL = "https://flaky.example.com" then (some 9, true, none)
  else if e.URL = "https://mirror.docker.io" then (some 8, true, none)
  else (some 7, true, none)

/-- The concrete registry. -/
def exEnv : Env Nat where
  ParseNormalizedNamed := fun s w => (exParse s, w + 1)
  ParseRepositoryInfo := fun ref w =>
    (if ref.name = "odd.example.com/app" then Except.error (errors.New "invalid repository name")
      else Except.ok ⟨ref, "index.docker.io"⟩, w + 1)
  ResolveAuthConfig := fun _ _ _ w => ("anonymous", w + 1)
  Domain := exDomain
  LookupPullEndpoints := fun domain w => (exEndpoints domain, w + 1)
  NewV2Repository := fun _ _ e _ w => (exHandshake e, w + 1)
  TagsAll := fun repository _ w =>
    (if repository = 9 then (["1.0"], some (errors.New "unexpected EOF"))
      else (["1.0", "3.18", "latest"], none), w + 1)
  TagsGet := fun _ _ tag w =>
    (if tag = "latest" then Except.ok ⟨"sha256:abc123", 528⟩
      else if tag = "3.18" then Except.ok ⟨"sha256:0318", 527⟩
      else Except.error (errors.New "manifest unknown"), w + 1)

/-- The package-level client of the examples. -/
def exClient : RegistryClient := ⟨1, 2⟩

/-- A receiver other than the package-level client. -/
def exOtherClient : RegistryClient := ⟨5, 6⟩

/-- The initial state of the examples: no call made yet. -/
def exStart : St Nat := ⟨0, []⟩

/-- The reference the toy parser gives for "library/alpine". -/
def exAlpine : Reference := ⟨"docker.io/library/alpine", none, none⟩

/-- The reference the toy parser gives for "empty.example.com/app", for which
discovery returns no endpoint. -/
def exEmpty : Reference := ⟨"empty.example.com/app", none, none⟩

/-- The reference the toy parser gives for "silent.example.com/app", none of
whose endpoints confirms v2. -/
def exSilent : Reference := ⟨"silent.example.com/app", none, none⟩

/-- The reference the toy parser gives for "down.example.com/app", whose
endpoint discovery fails. -/
def exDown : Reference := ⟨"down.example.com/app", none, none⟩

/-- The reference the toy parser gives for "odd.example.com/app", whose
repository info does not parse. -/
def exOdd : Reference := ⟨"odd.example.com/app", none, none⟩

/-- The reference the toy parser gives for "flaky.example.com/app", whose tag
listing fails after a first page. -/
def exFlaky : Reference := ⟨"flaky.example.com/app", none, none⟩

/-- The reference the toy parser gives for "library/alpine:1.0". -/
def exAlpineTagged : Reference := ⟨"docker.io/library/alpine", some "1.0", none⟩

/-- The repository info of `exAlpine`. -/
def exAlpineInfo : RepositoryInfo := ⟨exAlpine, "index.docker.io"⟩

/-- The endpoints discovered for "docker.io": a v1 server, an unreachable v2
server, and two v2 servers that confirm. -/
def exDockerEndpoints : List APIEndpoint :=
  [⟨"https://v1.docker.io", 1⟩, ⟨"https://unreachable.docker.io", 2⟩,
    ⟨"https://registry-1.docker.io", 2⟩, ⟨"https://mirror.docker.io", 2⟩]

/-! ## Equations of the embedding -/

section Equations

variable {W : Type}

theorem invoke_eq {α : Type} (c : Call) (f : W → α × W) (st : St W) (a : α) (w : W)
    (h : f st.world = (a, w)) : invoke c f st = (a, ⟨w, st.log ++ [c]⟩) := by
  simp [invoke, h]

theorem newRepositoryLoop_nil (env : Env W) (ctx : Context) (ri : RepositoryInfo)
    (ac : AuthConfig) (st : St W) :
    newRepositoryLoop env ctx ri ac [] st
      = ((none, some (errors.New "no V2 endpoint found")), st) := rfl

theorem newRepositoryLoop_cons_v1 (env : Env W) (ctx : Context) (ri : RepositoryInfo)
    (ac : AuthConfig) (e : APIEndpoint) (rest : List APIEndpoint) (st : St W)
    (hv : e.Version = APIVersion1) :
    newRepositoryLoop env ctx ri ac (e :: rest) st
      = newRepositoryLoop env ctx ri ac rest st := by
  simp [newRepositoryLoop, hv]

theorem newRepositoryLoop_cons_accepted (env : Env W) (ctx : Context) (ri : RepositoryInfo)
    (ac : AuthConfig) (e : APIEndpoint) (rest : List APIEndpoint) (st : St W)
    (hv : e.Version ≠ APIVersion1)
    (ha : Accepted (env.NewV2Repository ctx ri e ac st.world).1) :
    newRepositoryLoop env ctx ri ac (e :: rest) st
      = (((env.NewV2Repository ctx ri e ac st.world).1.1, none),
          ⟨(env.NewV2Repository ctx ri e ac st.world).2,
            st.log ++ [Call.NewV2Repository ctx ri e ac]⟩) := by
  obtain ⟨h1, h2⟩ := ha
  simp [newRepositoryLoop, hv, invoke, h1, h2]

theorem newRepositoryLoop_cons_rejected (env : Env W) (ctx : Context) (ri : RepositoryInfo)
    (ac : AuthConfig) (e : APIEndpoint) (rest : List APIEndpoint) (st : St W)
    (hv : e.Version ≠ APIVersion1)
    (ha : ¬ Accepted (env.NewV2Repository ctx ri e ac st.world).1) :
    newRepositoryLoop env ctx ri ac (e :: rest) st
      = newRepositoryLoop env ctx ri ac rest
          ⟨(env.NewV2Repository ctx ri e ac st.world).2,
            st.log ++ [Call.NewV2Repository ctx ri e ac]⟩ := by
  unfold Accepted at ha
  simp only [newRepositoryLoop, hv, invoke, if_neg ha, if_false]

/-- The error of the loop, when there is one, is the aggregate error and comes
with a nil repository. -/
theorem newRepositoryLoop_error_value (env : Env W) (ctx : Context) (ri : RepositoryInfo)
    (ac : AuthConfig) (l : List APIEndpoint) (st : St W)
    (h : (newRepositoryLoop env ctx ri ac l st).1.2 ≠ none) :
    (newRepositoryLoop env ctx ri ac l st).1
      = (none, some (errors.New "no V2 endpoint found")) := by
  induction l generalizing st with
  | nil => rfl
  | cons e rest ih =>
    by_cases hv : e.Version = APIVersion1
    · rw [newRepositoryLoop_cons_v1 env ctx ri ac e rest st hv] at h ⊢
      exact ih st h
    · by_cases ha : Accepted (env.NewV2Repository ctx ri e ac st.world).1
      · rw [newRepositoryLoop_cons_accepted env ctx ri ac e rest st hv ha] at h
        exact absurd rfl h
      · rw [newRepositoryLoop_cons_rejected env ctx ri ac e rest st hv ha] at h ⊢
        exact ih _ h

/-- When the loop ends with an error, every endpoint was skipped as v1 or
handshaked and rejected, in the state the loop had reached before it. -/
theorem newRepositoryLoop_rejected_of_error (env : Env W) (ctx : Context)
    (ri : RepositoryInfo) (ac : AuthConfig) (l : List APIEndpoint) (st : St W)
    (h : (newRepositoryLoop env ctx ri ac l st).1.2 ≠ none) :
    ∀ pre x post, l = pre ++ x :: post →
      x.Version = APIVersion1 ∨
      ¬ Accepted (env.NewV2Repository ctx ri x ac
          (newRepositoryLoop env ctx ri ac pre st).2.world).1 := by
  induction l generalizing st with
  | nil =>
    intro pre x post hsplit
    simp at hsplit
  | cons e rest ih =>
    intro pre x post hsplit
    by_cases hv : e.Version = APIVersion1
    · rw [newRepositoryLoop_cons_v1 env ctx ri ac e rest st hv] at h
      cases pre with
      | nil =>
        simp only [List.nil_append, List.cons.injEq] at hsplit
        left; rw [← hsplit.1]; exact hv
      | cons p pre2 =>
        simp only [List.cons_append, List.cons.injEq] at hsplit
        obtain ⟨hp, hrest⟩ := hsplit
        subst hp
        rw [newRepositoryLoop_cons_v1 env ctx ri ac e pre2 st hv]
        exact ih st h pre2 x post hrest
    · by_cases ha : Accepted (env.NewV2Repository ctx ri e ac st.world).1
      · rw [newRepositoryLoop_cons_accepted env ctx ri ac e rest st hv ha] at h
        exact absurd rfl h
      · rw [newRepositoryLoop_cons_rejected env ctx ri ac e rest st hv ha] at h
        cases pre with
        | nil =>
          simp only [List.nil_append, List.cons.injEq] at hsplit
          right; rw [← hsplit.1]; exact ha
        | cons p pre2 =>
          simp only [List.cons_append, List.cons.injEq] at hsplit
          obtain ⟨hp, hrest⟩ := hsplit
          subst hp
          rw [newRepositoryLoop_cons_rejected env ctx ri ac e pre2 st hv ha]
          exact ih _ h pre2 x post hrest

/-- When every endpoint is skipped as v1 or handshaked and rejected, the loop
ends with an error. -/
theorem newRepositoryLoop_error_of_rejected (env : Env W) (ctx : Context)
    (ri : RepositoryInfo) (ac : AuthConfig) (l : List APIEndpoint) (st : St W)
    (h : ∀ pre x post, l = pre ++ x :: post →
      x.Version = APIVersion1 ∨
      ¬ Accepted (env.NewV2Repository ctx ri x ac
          (newRepositoryLoop env ctx ri ac pre st).2.world).1) :
    (newRepositoryLoop env ctx ri ac l st).1.2 ≠ none := by
  induction l generalizing st with
  | nil => simp [newRepositoryLoop]
  | cons e rest ih =>
    by_cases hv : e.Version = APIVersion1
    · rw [newRepositoryLoop_cons_v1 env ctx ri ac e rest st hv]
      apply ih st
      intro pre x post hsplit
      have := h (e :: pre) x post (by rw [hsplit]; rfl)
      rwa [newRepositoryLoop_cons_v1 env ctx ri ac e pre st hv] at this
    · have ha : ¬ Accepted (env.NewV2Repository ctx ri e ac st.world).1 := by
        rcases h [] e rest rfl with h1 | h1
        · exact absurd h1 hv
        · exact h1
      rw [newRepositoryLoop_cons_rejected env ctx ri ac e rest st hv ha]
      apply ih
      intro pre x post hsplit
      have := h (e :: pre) x post (by rw [hsplit]; rfl)
      rwa [newRepositoryLoop_cons_rejected env ctx ri ac e pre st hv ha] at this

/-- When the loop ends with an error, it has handshaked every endpoint that is
not v1, in list order, and nothing else. -/
theorem newRepositoryLoop_log_of_error (env : Env W) (ctx : Context)
    (ri : RepositoryInfo) (ac : AuthConfig) (l : List APIEndpoint) (st : St W)
    (h : (newRepositoryLoop env ctx ri ac l st).1.2 ≠ none) :
    (newRepositoryLoop env ctx ri ac l st).2.log
      = st.log ++ handshakeCalls ctx ri ac l := by
  unfold handshakeCalls
  induction l generalizing st with
  | nil => simp [newRepositoryLoop]
  | cons e rest ih =>
    by_cases hv : e.Version = APIVersion1
    · rw [newRepositoryLoop_cons_v1 env ctx ri ac e rest st hv] at h ⊢
      rw [ih st h]
      simp [hv]
    · by_cases ha : Accepted (env.NewV2Repository ctx ri e ac st.world).1
      · rw [newRepositoryLoop_cons_accepted env ctx ri ac e rest st hv ha] at h
        exact absurd rfl h
      · rw [newRepositoryLoop_cons_rejected env ctx ri ac e rest st hv ha] at h ⊢
        rw [ih _ h]
        simp [hv]

/-- When the loop ends without error, the list splits around the selected
endpoint: the loop run on the part before it ends with an error, the selected
endpoint is not v1, its handshake in the state reached is accepted and gives
the result, and it is the last call made. -/
theorem newRepositoryLoop_split_of_success (env : Env W) (ctx : Context)
    (ri : RepositoryInfo) (ac : AuthConfig) (l : List APIEndpoint) (st : St W)
    (h : (newRepositoryLoop env ctx ri ac l st).1.2 = none) :
    ∃ pre e post, l = pre ++ e :: post ∧ e.Version ≠ APIVersion1 ∧
      (newRepositoryLoop env ctx ri ac pre st).1.2 ≠ none ∧
      Accepted (env.NewV2Repository ctx ri e ac
        (newRepositoryLoop env ctx ri ac pre st).2.world).1 ∧
      newRepositoryLoop env ctx ri ac l st
        = (((env.NewV2Repository ctx ri e ac
              (newRepositoryLoop env ctx ri ac pre st).2.world).1.1, none),
            ⟨(env.NewV2Repository ctx ri e ac
              (newRepositoryLoop env ctx ri ac pre st).2.world).2,
             (newRepositoryLoop env ctx ri ac pre st).2.log
               ++ [Call.NewV2Repository ctx ri e ac]⟩) := by
  induction l generalizing st with
  | nil => simp [newRepositoryLoop] at h
  | cons e rest ih =>
    by_cases hv : e.Version = APIVersion1
    · rw [newRepositoryLoop_cons_v1 env ctx ri ac e rest st hv] at h
      obtain ⟨pre, x, post, hsplit, hx, hpre, hacc, heq⟩ := ih st h
      refine ⟨e :: pre, x, post, by rw [hsplit]; rfl, hx, ?_, ?_, ?_⟩
      · rwa [newRepositoryLoop_cons_v1 env ctx ri ac e pre st hv]
      · rwa [newRepositoryLoop_cons_v1 env ctx ri ac e pre st hv]
      · rw [newRepositoryLoop_cons_v1 env ctx ri ac e rest st hv,
          newRepositoryLoop_cons_v1 env ctx ri ac e pre st hv]
        exact heq
    · by_cases ha : Accepted (env.NewV2Repository ctx ri e ac st.world).1
      · refine ⟨[], e, rest, rfl, hv, by simp [newRepositoryLoop], ha, ?_⟩
        rw [newRepositoryLoop_cons_accepted env ctx ri ac e rest st hv ha]
        rfl
      · rw [newRepositoryLoop_cons_rejected env ctx ri ac e rest st hv ha] at h
        obtain ⟨pre, x, post, hsplit, hx, hpre, hacc, heq⟩ := ih _ h
        refine ⟨e :: pre, x, post, by rw [hsplit]; rfl, hx, ?_, ?_, ?_⟩
        · rwa [newRepositoryLoop_cons_rejected env ctx ri ac e pre st hv ha]
        · rwa [newRepositoryLoop_cons_rejected env ctx ri ac e pre st hv ha]
        · rw [newRepositoryLoop_cons_rejected env ctx ri ac e rest st hv ha,
            newRepositoryLoop_cons_rejected env ctx ri ac e pre st hv ha]
          exact heq

theorem handshakeCalls_append (ctx : Context) (ri : RepositoryInfo) (ac : AuthConfig)
    (l1 l2 : List APIEndpoint) :
    handshakeCalls ctx ri ac (l1 ++ l2)
      = handshakeCalls ctx ri ac l1 ++ handshakeCalls ctx ri ac l2 := by
  simp [handshakeCalls]

theorem handshakeCalls_single (ctx : Context) (ri : RepositoryInfo) (ac : AuthConfig)
    (e : APIEndpoint) (hv : e.Version ≠ APIVersion1) :
    handshakeCalls ctx ri ac [e] = [Call.NewV2Repository ctx ri e ac] := by
  simp [handshakeCalls, hv]

theorem mem_handshakeCalls (ctx : Context) (ri : RepositoryInfo) (ac : AuthConfig)
    (l : List APIEndpoint) (c : Call) :
    c ∈ handshakeCalls ctx ri ac l ↔
      ∃ e, e ∈ l ∧ e.Version ≠ APIVersion1 ∧ c = Call.NewV2Repository ctx ri e ac := by
  simp only [handshakeCalls, List.mem_map, List.mem_filter, decide_eq_true_eq]
  constructor
  · rintro ⟨e, ⟨h1, h2⟩, h3⟩
    exact ⟨e, h1, h2, h3.symm⟩
  · rintro ⟨e, h1, h2, h3⟩
    exact ⟨e, ⟨h1, h2⟩, h3.symm⟩

/-- The calls the loop makes are the handshakes on the endpoints, other than
v1 ones, of an initial segment of the list. -/
theorem newRepositoryLoop_log (env : Env W) (ctx : Context) (ri : RepositoryInfo)
    (ac : AuthConfig) (l : List APIEndpoint) (st : St W) :
    ∃ visited rest, l = visited ++ rest ∧
      (newRepositoryLoop env ctx ri ac l st).2.log
        = st.log ++ handshakeCalls ctx ri ac visited := by
  by_cases h : (newRepositoryLoop env ctx ri ac l st).1.2 = none
  · obtain ⟨pre, e, post, hsplit, hv, hpre, -, heq⟩ :=
      newRepositoryLoop_split_of_success env ctx ri ac l st h
    refine ⟨pre ++ [e], post, by simp [hsplit], ?_⟩
    rw [heq, handshakeCalls_append, handshakeCalls_single ctx ri ac e hv]
    simp only
    rw [newRepositoryLoop_log_of_error env ctx ri ac pre st hpre, List.append_assoc]
  · exact ⟨l, [], by simp, newRepositoryLoop_log_of_error env ctx ri ac l st h⟩

/-- With a non-nil receiver, after repository-info parsing and endpoint
discovery have succeeded, `newRepository` is its loop run on the discovered
endpoints. -/
theorem newRepository_eq_loop (env : Env W) (rc : RegistryClient) (ref : Reference)
    (st : St W) (ri : RepositoryInfo) (w1 : W) (ac : AuthConfig) (w2 : W)
    (endpoints : List APIEndpoint) (w3 : W)
    (hri : env.ParseRepositoryInfo ref st.world = (Except.ok ri, w1))
    (hac : env.ResolveAuthConfig rc.ctx rc.dockerCli ri.Index w1 = (ac, w2))
    (hep : env.LookupPullEndpoints (env.Domain ri.Name) w2 = (Except.ok endpoints, w3)) :
    RegistryClient.newRepository env (some rc) ref st
      = (some (newRepositoryLoop env rc.ctx ri ac endpoints
            ⟨w3, st.log ++ discoveryCalls rc ref ri (env.Domain ri.Name)⟩).1,
          (newRepositoryLoop env rc.ctx ri ac endpoints
            ⟨w3, st.log ++ discoveryCalls rc ref ri (env.Domain ri.Name)⟩).2) := by
  simp [RegistryClient.newRepository, invoke, hri, hac, hep, discoveryCalls]

/-- Every call `newRepository` makes is a repository-info parse, a credential
resolution, an endpoint discovery or a handshake; none is a session query, and
with a non-nil receiver each carries the receiver's context and client. -/
theorem newRepository_log (env : Env W) (registryClient : Option RegistryClient)
    (ref : Reference) (st : St W) :
    ∃ calls, (RegistryClient.newRepository env registryClient ref st).2.log = st.log ++ calls ∧
      ∀ c ∈ calls, c.isSessionQuery = false ∧
        ∀ rc, registryClient = some rc → c.UsesClient rc := by
  rcases hri : env.ParseRepositoryInfo ref st.world with ⟨r | ri, w1⟩
  · refine ⟨[Call.ParseRepositoryInfo ref], ?_, ?_⟩
    · simp [RegistryClient.newRepository, invoke, hri]
    · intro c hc
      simp only [List.mem_singleton] at hc
      subst hc
      exact ⟨rfl, fun _ _ => trivial⟩
  · cases registryClient with
    | none =>
      refine ⟨[Call.ParseRepositoryInfo ref], ?_, ?_⟩
      · simp [RegistryClient.newRepository, invoke, hri]
      · intro c hc
        simp only [List.mem_singleton] at hc
        subst hc
        exact ⟨rfl, fun _ _ => trivial⟩
    | some rc =>
      rcases hac : env.ResolveAuthConfig rc.ctx rc.dockerCli ri.Index w1 with ⟨ac, w2⟩
      rcases hep : env.LookupPullEndpoints (env.Domain ri.Name) w2 with ⟨r | endpoints, w3⟩
      · refine ⟨discoveryCalls rc ref ri (env.Domain ri.Name), ?_, ?_⟩
        · simp [RegistryClient.newRepository, invoke, hri, hac, hep, discoveryCalls]
        · intro c hc
          simp only [discoveryCalls, List.mem_cons, List.mem_singleton, List.mem_nil_iff,
            or_false] at hc
          rcases hc with rfl | rfl | rfl
          · exact ⟨rfl, fun _ _ => trivial⟩
          · refine ⟨rfl, fun rc2 h2 => ?_⟩
            cases h2
            exact ⟨rfl, rfl⟩
          · exact ⟨rfl, fun _ _ => trivial⟩
      · obtain ⟨visited, rest, -, hlog⟩ := newRepositoryLoop_log env rc.ctx ri ac endpoints
          ⟨w3, st.log ++ discoveryCalls rc ref ri (env.Domain ri.Name)⟩
        refine ⟨discoveryCalls rc ref ri (env.Domain ri.Name)
          ++ handshakeCalls rc.ctx ri ac visited, ?_, ?_⟩
        · rw [newRepository_eq_loop env rc ref st ri w1 ac w2 endpoints w3 hri hac hep]
          simp only
          rw [hlog, List.append_assoc]
        · intro c hc
          rw [List.mem_append] at hc
          rcases hc with hc | hc
          · simp only [discoveryCalls, List.mem_cons, List.mem_singleton, List.mem_nil_iff,
              or_false] at hc
            rcases hc with rfl | rfl | rfl
            · exact ⟨rfl, fun _ _ => trivial⟩
            · refine ⟨rfl, fun rc2 h2 => ?_⟩
              cases h2
              exact ⟨rfl, rfl⟩
            · exact ⟨rfl, fun _ _ => trivial⟩
          · obtain ⟨e, -, -, rfl⟩ := (mem_handshakeCalls rc.ctx ri ac visited c).1 hc
            refine ⟨rfl, fun rc2 h2 => ?_⟩
            cases h2
            exact rfl

/-- When the loop run on a list ends with an error, the loop run on that list
followed by more endpoints continues on these from the state reached. -/
theorem newRepositoryLoop_append (env : Env W) (ctx : Context) (ri : RepositoryInfo)
    (ac : AuthConfig) (pre l2 : List APIEndpoint) (st : St W)
    (h : (newRepositoryLoop env ctx ri ac pre st).1.2 ≠ none) :
    newRepositoryLoop env ctx ri ac (pre ++ l2) st
      = newRepositoryLoop env ctx ri ac l2 (newRepositoryLoop env ctx ri ac pre st).2 := by
  induction pre generalizing st with
  | nil => rfl
  | cons e rest ih =>
    by_cases hv : e.Version = APIVersion1
    · rw [List.cons_append, newRepositoryLoop_cons_v1 env ctx ri ac e _ st hv,
        newRepositoryLoop_cons_v1 env ctx ri ac e rest st hv]
      rw [newRepositoryLoop_cons_v1 env ctx ri ac e rest st hv] at h
      exact ih st h
    · by_cases ha : Accepted (env.NewV2Repository ctx ri e ac st.world).1
      · rw [newRepositoryLoop_cons_accepted env ctx ri ac e rest st hv ha] at h
        exact absurd rfl h
      · rw [List.cons_append, newRepositoryLoop_cons_rejected env ctx ri ac e _ st hv ha,
          newRepositoryLoop_cons_rejected env ctx ri ac e rest st hv ha]
        rw [newRepositoryLoop_cons_rejected env ctx ri ac e rest st hv ha] at h
        exact ih _ h

/-- The first call the loop makes on a list whose head is not v1 is the
handshake on the head. -/
theorem newRepositoryLoop_cons_log (env : Env W) (ctx : Context) (ri : RepositoryInfo)
    (ac : AuthConfig) (e : APIEndpoint) (rest : List APIEndpoint) (st : St W)
    (hv : e.Version ≠ APIVersion1) :
    ∃ more, (newRepositoryLoop env ctx ri ac (e :: rest) st).2.log
      = st.log ++ Call.NewV2Repository ctx ri e ac :: more := by
  by_cases ha : Accepted (env.NewV2Repository ctx ri e ac st.world).1
  · exact ⟨[], by rw [newRepositoryLoop_cons_accepted env ctx ri ac e rest st hv ha]⟩
  · obtain ⟨visited, -, -, hlog⟩ := newRepositoryLoop_log env ctx ri ac rest
      ⟨(env.NewV2Repository ctx ri e ac st.world).2,
        st.log ++ [Call.NewV2Repository ctx ri e ac]⟩
    refine ⟨handshakeCalls ctx ri ac visited, ?_⟩
    rw [newRepositoryLoop_cons_rejected env ctx ri ac e rest st hv ha, hlog]
    simp

/-- Every call GetTags makes with a non-nil package-level client carries that
client's context and docker client. -/
theorem GetTags_log (env : Env W) (registryClient recv : Option RegistryClient)
    (s : String) (st : St W) :
    ∃ calls, (RegistryClient.GetTags env registryClient recv s st).2.log = st.log ++ calls ∧
      ∀ c ∈ calls, ∀ rc, registryClient = some rc → c.UsesClient rc := by
  have hsingle : ∀ c ∈ [Call.ParseNormalizedNamed s],
      ∀ rc, registryClient = some rc → c.UsesClient rc := by
    intro c hc rc _
    simp only [List.mem_singleton] at hc
    subst hc
    trivial
  rcases hp : env.ParseNormalizedNamed s st.world with ⟨e | ref, w1⟩
  · exact ⟨[Call.ParseNormalizedNamed s], by simp [RegistryClient.GetTags, invoke, hp], hsingle⟩
  · cases htag : ref.tag with
    | some t =>
      exact ⟨[Call.ParseNormalizedNamed s],
        by simp [RegistryClient.GetTags, invoke, hp, htag], hsingle⟩
    | none =>
      cases registryClient with
      | none =>
        exact ⟨[Call.ParseNormalizedNamed s],
          by simp [RegistryClient.GetTags, invoke, hp, htag], hsingle⟩
      | some rc =>
        obtain ⟨calls1, hcalls1, hprop1⟩ := newRepository_log env (some rc) ref
          ⟨w1, st.log ++ [Call.ParseNormalizedNamed s]⟩
        have hbase : ∀ c ∈ Call.ParseNormalizedNamed s :: calls1,
            ∀ rc2, some rc = some rc2 → c.UsesClient rc2 := by
          intro c hc rc2 h2
          rcases List.mem_cons.1 hc with rfl | hc
          · trivial
          · exact (hprop1 c hc).2 rc2 h2
        rcases hnr : RegistryClient.newRepository env (some rc) ref
          ⟨w1, st.log ++ [Call.ParseNormalizedNamed s]⟩ with ⟨_ | ⟨_ | repo, _ | err⟩, st2⟩
        · rw [hnr] at hcalls1
          exact ⟨Call.ParseNormalizedNamed s :: calls1,
            by simpa [RegistryClient.GetTags, invoke, hp, htag, hnr] using hcalls1, hbase⟩
        · rw [hnr] at hcalls1
          exact ⟨Call.ParseNormalizedNamed s :: calls1,
            by simpa [RegistryClient.GetTags, invoke, hp, htag, hnr] using hcalls1, hbase⟩
        · rw [hnr] at hcalls1
          exact ⟨Call.ParseNormalizedNamed s :: calls1,
            by simpa [RegistryClient.GetTags, invoke, hp, htag, hnr] using hcalls1, hbase⟩
        · rw [hnr] at hcalls1
          simp only at hcalls1
          refine ⟨Call.ParseNormalizedNamed s :: (calls1 ++ [Call.TagsAll repo rc.ctx]),
            by simp [RegistryClient.GetTags, invoke, hp, htag, hnr, hcalls1], ?_⟩
          intro c hc rc2 h2
          rcases List.mem_cons.1 hc with rfl | hc
          · trivial
          · rcases List.mem_append.1 hc with hc | hc
            · exact (hprop1 c hc).2 rc2 h2
            · simp only [List.mem_singleton] at hc
              subst hc
              cases h2
              exact rfl
        · rw [hnr] at hcalls1
          exact ⟨Call.ParseNormalizedNamed s :: calls1,
            by simpa [RegistryClient.GetTags, invoke, hp, htag, hnr] using hcalls1, hbase⟩

/-- Every call GetDigest makes with a non-nil package-level client carries
that client's context and docker client. -/
theorem GetDigest_log (env : Env W) (registryClient recv : Option RegistryClient)
    (s : String) (st : St W) :
    ∃ calls, (RegistryClient.GetDigest env registryClient recv s st).2.log = st.log ++ calls ∧
      ∀ c ∈ calls, ∀ rc, registryClient = some rc → c.UsesClient rc := by
  have hsingle : ∀ c ∈ [Call.ParseNormalizedNamed s],
      ∀ rc, registryClient = some rc → c.UsesClient rc := by
    intro c hc rc _
    simp only [List.mem_singleton] at hc
    subst hc
    trivial
  rcases hp : env.ParseNormalizedNamed s st.world with ⟨e | ref, w1⟩
  · exact ⟨[Call.ParseNormalizedNamed s],
      by simp [RegistryClient.GetDigest, invoke, hp], hsingle⟩
  · cases hdig : ref.digest with
    | some d =>
      exact ⟨[Call.ParseNormalizedNamed s],
        by simp [RegistryClient.GetDigest, invoke, hp, hdig], hsingle⟩
    | none =>
      obtain ⟨calls1, hcalls1, hprop1⟩ := newRepository_log env registryClient ref
        ⟨w1, st.log ++ [Call.ParseNormalizedNamed s]⟩
      have hbase : ∀ c ∈ Call.ParseNormalizedNamed s :: calls1,
          ∀ rc2, registryClient = some rc2 → c.UsesClient rc2 := by
        intro c hc rc2 h2
        rcases List.mem_cons.1 hc with rfl | hc
        · trivial
        · exact (hprop1 c hc).2 rc2 h2
      rcases hnr : RegistryClient.newRepository env registryClient ref
        ⟨w1, st.log ++ [Call.ParseNormalizedNamed s]⟩ with ⟨_ | ⟨repo, _ | err⟩, st2⟩
      · rw [hnr] at hcalls1
        exact ⟨Call.ParseNormalizedNamed s :: calls1,
          by simpa [RegistryClient.GetDigest, invoke, hp, hdig, hnr] using hcalls1, hbase⟩
      · rw [hnr] at hcalls1
        simp only at hcalls1
        cases registryClient with
        | none =>
          exact ⟨Call.ParseNormalizedNamed s :: calls1,
            by simpa [RegistryClient.GetDigest, invoke, hp, hdig, hnr] using hcalls1, hbase⟩
        | some rc =>
          cases repo with
          | none =>
            exact ⟨Call.ParseNormalizedNamed s :: calls1,
              by simpa [RegistryClient.GetDigest, invoke, hp, hdig, hnr] using hcalls1, hbase⟩
          | some repo =>
            rcases hq : env.TagsGet repo rc.ctx
              (match ref.tag with
                | some t => t
                | none => "latest") st2.world with ⟨r, w3⟩
            refine ⟨Call.ParseNormalizedNamed s :: (calls1 ++ [Call.TagsGet repo rc.ctx
              (match ref.tag with
                | some t => t
                | none => "latest")]), ?_, ?_⟩
            · cases r <;>
                simp [RegistryClient.GetDigest, invoke, hp, hdig, hnr, hq, hcalls1]
            · intro c hc rc2 h2
              rcases List.mem_cons.1 hc with rfl | hc
              · trivial
              · rcases List.mem_append.1 hc with hc | hc
                · exact (hprop1 c hc).2 rc2 h2
                · simp only [List.mem_singleton] at hc
                  subst hc
                  cases h2
                  exact rfl
      · rw [hnr] at hcalls1
        exact ⟨Call.ParseNormalizedNamed s :: calls1,
          by simpa [RegistryClient.GetDigest, invoke, hp, hdig, hnr] using hcalls1, hbase⟩

/-- The calls of the loop are handshakes on endpoints of the list that are not
v1; no handshake is made on a v1 endpoint; and a repository returned with a
nil error was produced by an accepted handshake on an endpoint of the list
that is not v1. -/
theorem newRepositoryLoop_calls_not_v1 (env : Env W) (ctx : Context) (ri : RepositoryInfo)
    (ac : AuthConfig) (l : List APIEndpoint) (st : St W) :
    ∃ calls, (newRepositoryLoop env ctx ri ac l st).2.log = st.log ++ calls ∧
      (∀ c ∈ calls, ∃ e ∈ l, e.Version ≠ APIVersion1 ∧ c = Call.NewV2Repository ctx ri e ac) ∧
      (∀ e, e.Version = APIVersion1 → Call.NewV2Repository ctx ri e ac ∉ calls) ∧
      (∀ repository, (newRepositoryLoop env ctx ri ac l st).1 = (repository, none) →
        ∃ e ∈ l, e.Version ≠ APIVersion1 ∧
          ∃ w, (env.NewV2Repository ctx ri e ac w).1 = (repository, true, none)) := by
  obtain ⟨visited, rest, hl, hlog⟩ := newRepositoryLoop_log env ctx ri ac l st
  refine ⟨handshakeCalls ctx ri ac visited, hlog, ?_, ?_, ?_⟩
  · intro c hc
    obtain ⟨e, he, hv, rfl⟩ := (mem_handshakeCalls ctx ri ac visited c).1 hc
    exact ⟨e, by rw [hl]; exact List.mem_append_left _ he, hv, rfl⟩
  · intro e hv hc
    obtain ⟨e2, -, hv2, heq⟩ := (mem_handshakeCalls ctx ri ac visited _).1 hc
    simp only [Call.NewV2Repository.injEq, true_and, and_true] at heq
    rw [heq] at hv
    exact hv2 hv
  · intro repository hres
    have hnone : (newRepositoryLoop env ctx ri ac l st).1.2 = none := by rw [hres]
    obtain ⟨pre, e, post, hsplit, hv, -, hacc, heq⟩ :=
      newRepositoryLoop_split_of_success env ctx ri ac l st hnone
    refine ⟨e, by rw [hsplit]; simp, hv, (newRepositoryLoop env ctx ri ac pre st).2.world, ?_⟩
    rw [heq] at hres
    simp only [Prod.mk.injEq, and_true] at hres
    obtain ⟨ha1, ha2⟩ := hacc
    apply Prod.ext
    · exact hres
    · apply Prod.ext
      · exact ha2
      · exact ha1

end Equations

/-! ## Claims -/

section Claims

variable {W : Type}

/-- C1: when the input string parses to a reference carrying a digest d (with
or without a tag), GetDigest (method, for every receiver, and package-level
function) returns exactly d with a nil error, and the only collaborator
invoked is the reference parser: the call log grows by that one call and the
world is the one the parser left.  Hence the outcome is the same under every
behaviour of the other collaborators. -/
theorem GetDigest_digested_returns_digest_locally (env : Env W)
    (registryClient recv : Option RegistryClient) (s : String) (st : St W)
    (ref : Reference) (d : Digest) (w1 : W)
    (hparse : env.ParseNormalizedNamed s st.world = (Except.ok ref, w1))
    (hdigest : ref.digest = some d) :
    RegistryClient.GetDigest env registryClient recv s st
        = (some (d, none), ⟨w1, st.log ++ [Call.ParseNormalizedNamed s]⟩)
      ∧ GetDigest env registryClient s st
        = (some (d, none), ⟨w1, st.log ++ [Call.ParseNormalizedNamed s]⟩)
      ∧ ∀ env2 : Env W, env2.ParseNormalizedNamed = env.ParseNormalizedNamed →
          GetDigest env2 registryClient s st = GetDigest env registryClient s st := by
  have key : ∀ e : Env W, e.ParseNormalizedNamed = env.ParseNormalizedNamed →
      ∀ r : Option RegistryClient, RegistryClient.GetDigest e registryClient r s st
        = (some (d, none), ⟨w1, st.log ++ [Call.ParseNormalizedNamed s]⟩) := by
    intro e he r
    have hp : e.ParseNormalizedNamed s st.world = (Except.ok ref, w1) := by rw [he]; exact hparse
    simp [RegistryClient.GetDigest, invoke_eq _ _ _ _ _ hp, hdigest]
  refine ⟨key env rfl recv, key env rfl registryClient, ?_⟩
  intro env2 h2
  show RegistryClient.GetDigest env2 registryClient registryClient s st
    = RegistryClient.GetDigest env registryClient registryClient s st
  rw [key env2 h2, key env rfl]

/-- C1, evaluated on the concrete registry with a nil package-level client:
a reference with a digest, and one with a tag and a digest, resolve to the
digest after the parser call alone. -/
theorem GetDigest_digested_returns_digest_locally_witness :
    (RegistryClient.GetDigest exEnv none (some exOtherClient) "library/alpine@sha256:deadbeef"
          exStart
        = (some ("sha256:deadbeef", none),
            ⟨1, exStart.log ++ [Call.ParseNormalizedNamed "library/alpine@sha256:deadbeef"]⟩)
      ∧ GetDigest exEnv none "library/alpine@sha256:deadbeef" exStart
        = (some ("sha256:deadbeef", none),
            ⟨1, exStart.log ++ [Call.ParseNormalizedNamed "library/alpine@sha256:deadbeef"]⟩)
      ∧ ∀ env2 : Env Nat, env2.ParseNormalizedNamed = exEnv.ParseNormalizedNamed →
          GetDigest env2 none "library/alpine@sha256:deadbeef" exStart
            = GetDigest exEnv none "library/alpine@sha256:deadbeef" exStart)
    ∧ GetDigest exEnv (some exClient) "library/alpine:1.0@sha256:deadbeef" exStart
        = (some ("sha256:deadbeef", none),
            ⟨1, exStart.log
              ++ [Call.ParseNormalizedNamed "library/alpine:1.0@sha256:deadbeef"]⟩) :=
  ⟨GetDigest_digested_returns_digest_locally exEnv none (some exOtherClient)
      "library/alpine@sha256:deadbeef" exStart
      ⟨"docker.io/library/alpine", none, some "sha256:deadbeef"⟩ "sha256:deadbeef" 1 rfl rfl,
    (GetDigest_digested_returns_digest_locally exEnv (some exClient) (some exClient)
      "library/alpine:1.0@sha256:deadbeef" exStart
      ⟨"docker.io/library/alpine", some "1.0", some "sha256:deadbeef"⟩ "sha256:deadbeef" 1
      rfl rfl).2.1⟩

/-- C2: when the input string parses to a reference carrying a tag, GetTags
(method, for every receiver, and package-level function) returns no tags and
the error "reference already has a tag", and the only collaborator invoked is
the reference parser: newRepository and the tag listing are never reached. -/
theorem GetTags_tagged_fails_locally (env : Env W)
    (registryClient recv : Option RegistryClient) (s : String) (st : St W)
    (ref : Reference) (t : String) (w1 : W)
    (hparse : env.ParseNormalizedNamed s st.world = (Except.ok ref, w1))
    (htag : ref.tag = some t) :
    RegistryClient.GetTags env registryClient recv s st
        = (some ([], some (errors.New "reference already has a tag")),
            ⟨w1, st.log ++ [Call.ParseNormalizedNamed s]⟩)
      ∧ GetTags env registryClient s st
        = (some ([], some (errors.New "reference already has a tag")),
            ⟨w1, st.log ++ [Call.ParseNormalizedNamed s]⟩) := by
  constructor <;>
    simp [GetTags, RegistryClient.GetTags, invoke_eq _ _ _ _ _ hparse, htag]

/-- C2, evaluated on the concrete registry with a nil package-level client:
"library/alpine:1.0" is rejected after the parser call alone. -/
theorem GetTags_tagged_fails_locally_witness :
    RegistryClient.GetTags exEnv none (some exOtherClient) "library/alpine:1.0" exStart
        = (some ([], some (errors.New "reference already has a tag")),
            ⟨1, exStart.log ++ [Call.ParseNormalizedNamed "library/alpine:1.0"]⟩)
      ∧ GetTags exEnv none "library/alpine:1.0" exStart
        = (some ([], some (errors.New "reference already has a tag")),
            ⟨1, exStart.log ++ [Call.ParseNormalizedNamed "library/alpine:1.0"]⟩) :=
  GetTags_tagged_fails_locally exEnv none (some exOtherClient) "library/alpine:1.0" exStart
    exAlpineTagged "1.0" 1 rfl rfl

/-- C3: when the input string parses to a reference without a digest and
newRepository returns a repository with a nil error, GetDigest makes exactly
one session query: a tag lookup on that repository, with the context of the
package-level client, for the reference's own tag if it carries one and for
"latest" if it carries none; the query is the last call made, and when
it returns a descriptor without error GetDigest returns that descriptor's
digest with a nil error. -/
theorem GetDigest_resolves_own_tag_or_latest (env : Env W)
    (registryClient recv : Option RegistryClient) (s : String) (st : St W)
    (ref : Reference) (w1 : W) (tag : String) (repository : Repository) (st2 : St W)
    (hparse : env.ParseNormalizedNamed s st.world = (Except.ok ref, w1))
    (hdigest : ref.digest = none)
    (htag : ref.tag = some tag ∨ (ref.tag = none ∧ tag = "latest"))
    (hrepo : RegistryClient.newRepository env registryClient ref
        ⟨w1, st.log ++ [Call.ParseNormalizedNamed s]⟩
          = (some (some repository, none), st2)) :
    ∃ rc, registryClient = some rc ∧
      (RegistryClient.GetDigest env registryClient recv s st).2.log
        = st2.log ++ [Call.TagsGet repository rc.ctx tag] ∧
      (RegistryClient.GetDigest env registryClient recv s st).2.log.filter Call.isSessionQuery
        = st.log.filter Call.isSessionQuery ++ [Call.TagsGet repository rc.ctx tag] ∧
      ∀ descriptor w3,
        env.TagsGet repository rc.ctx tag st2.world = (Except.ok descriptor, w3) →
        RegistryClient.GetDigest env registryClient recv s st
          = (some (descriptor.Digest, none),
              ⟨w3, st2.log ++ [Call.TagsGet repository rc.ctx tag]⟩) := by
  have htag2 : (match ref.tag with
      | some t => t
      | none => "latest") = tag := by
    rcases htag with h | ⟨h, rfl⟩ <;> simp [h]
  cases registryClient with
  | none =>
    exfalso
    rcases hri : env.ParseRepositoryInfo ref w1 with ⟨r | ri, w⟩ <;>
      simp [RegistryClient.newRepository, invoke, hri] at hrepo
  | some rc =>
    have hrun : ∀ r w3, env.TagsGet repository rc.ctx tag st2.world = (r, w3) →
        RegistryClient.GetDigest env (some rc) recv s st
          = (match r with
              | Except.error err => some (nullDigest, some err)
              | Except.ok descriptor => some (descriptor.Digest, none),
              ⟨w3, st2.log ++ [Call.TagsGet repository rc.ctx tag]⟩) := by
      intro r w3 hq
      cases r <;>
        simp [RegistryClient.GetDigest, invoke, hparse, hdigest, htag2, hrepo, hq]
    have hlog : (RegistryClient.GetDigest env (some rc) recv s st).2.log
        = st2.log ++ [Call.TagsGet repository rc.ctx tag] := by
      rcases hq : env.TagsGet repository rc.ctx tag st2.world with ⟨r, w3⟩
      rw [hrun r w3 hq]
    refine ⟨rc, rfl, hlog, ?_, ?_⟩
    · obtain ⟨calls, hcalls, hprop⟩ := newRepository_log env (some rc) ref
        ⟨w1, st.log ++ [Call.ParseNormalizedNamed s]⟩
      rw [hrepo] at hcalls
      simp only at hcalls
      have hnone : calls.filter Call.isSessionQuery = [] := by
        rw [List.filter_eq_nil_iff]
        intro c hc
        simp [(hprop c hc).1]
      rw [hlog, hcalls]
      simp [List.filter_append, hnone, Call.isSessionQuery]
    · intro descriptor w3 hq
      rw [hrun _ w3 hq]

/-- C3, evaluated on the concrete registry: "library/alpine" is resolved by a
lookup of "latest", "library/alpine:3.18" by a lookup of "3.18", each on
the repository of the first confirming endpoint. -/
theorem GetDigest_resolves_own_tag_or_latest_witness :
    (∃ rc, some exClient = some rc ∧
      (RegistryClient.GetDigest exEnv (some exClient) (some exOtherClient) "library/alpine"
          exStart).2.log
        = (RegistryClient.newRepository exEnv (some exClient) exAlpine
            ⟨1, exStart.log ++ [Call.ParseNormalizedNamed "library/alpine"]⟩).2.log
          ++ [Call.TagsGet 7 rc.ctx "latest"] ∧
      (RegistryClient.GetDigest exEnv (some exClient) (some exOtherClient) "library/alpine"
          exStart).2.log.filter Call.isSessionQuery
        = exStart.log.filter Call.isSessionQuery ++ [Call.TagsGet 7 rc.ctx "latest"] ∧
      ∀ descriptor w3,
        exEnv.TagsGet 7 rc.ctx "latest"
            (RegistryClient.newRepository exEnv (some exClient) exAlpine
              ⟨1, exStart.log ++ [Call.ParseNormalizedNamed "library/alpine"]⟩).2.world
          = (Except.ok descriptor, w3) →
        RegistryClient.GetDigest exEnv (some exClient) (some exOtherClient) "library/alpine"
            exStart
          = (some (descriptor.Digest, none),
              ⟨w3, (RegistryClient.newRepository exEnv (some exClient) exAlpine
                  ⟨1, exStart.log ++ [Call.ParseNormalizedNamed "library/alpine"]⟩).2.log
                ++ [Call.TagsGet 7 rc.ctx "latest"]⟩))
    ∧ (GetDigest exEnv (some exClient) "library/alpine" exStart).1
        = some ("sha256:abc123", none)
    ∧ (GetDigest exEnv (some exClient) "library/alpine:3.18" exStart).2.log.filter
          Call.isSessionQuery
        = [Call.TagsGet 7 2 "3.18"]
    ∧ (GetDigest exEnv (some exClient) "library/alpine:3.18" exStart).1
        = some ("sha256:0318", none) :=
  ⟨GetDigest_resolves_own_tag_or_latest exEnv (some exClient) (some exOtherClient)
      "library/alpine" exStart exAlpine 1 "latest" 7
      (RegistryClient.newRepository exEnv (some exClient) exAlpine
        ⟨1, exStart.log ++ [Call.ParseNormalizedNamed "library/alpine"]⟩).2
      rfl rfl (Or.inr ⟨rfl, rfl⟩) (by decide),
    by decide, by decide, by decide⟩

/-- C4: with a non-nil receiver and after repository-info parsing and endpoint
discovery have succeeded, whenever newRepository returns a nil error the
candidate list splits as `pre ++ e :: post` where: the selected endpoint `e` is
not v1 and its handshake, made in the world the loop had reached, returned the
returned repository with confirmedV2 = true and a nil error; every endpoint
of `pre` was skipped as v1 or had its handshake rejected (an error, or no error
without confirmation); and the handshakes made are those of the endpoints of
`pre` other than v1 followed by that of `e`, so nothing in `post` is contacted. -/
theorem newRepository_returns_first_accepted (env : Env W) (rc : RegistryClient)
    (ref : Reference) (st : St W) (ri : RepositoryInfo) (w1 : W) (ac : AuthConfig) (w2 : W)
    (endpoints : List APIEndpoint) (w3 : W)
    (hri : env.ParseRepositoryInfo ref st.world = (Except.ok ri, w1))
    (hac : env.ResolveAuthConfig rc.ctx rc.dockerCli ri.Index w1 = (ac, w2))
    (hep : env.LookupPullEndpoints (env.Domain ri.Name) w2 = (Except.ok endpoints, w3))
    (repository : Option Repository) (st' : St W)
    (hsucc : RegistryClient.newRepository env (some rc) ref st
      = (some (repository, none), st')) :
    ∃ pre e post, endpoints = pre ++ e :: post ∧ e.Version ≠ APIVersion1 ∧
      env.NewV2Repository rc.ctx ri e ac
          (newRepositoryLoop env rc.ctx ri ac pre
            ⟨w3, st.log ++ discoveryCalls rc ref ri (env.Domain ri.Name)⟩).2.world
        = ((repository, true, none), st'.world) ∧
      (∀ pre2 x post2, pre = pre2 ++ x :: post2 →
        x.Version = APIVersion1 ∨
        ¬ Accepted (env.NewV2Repository rc.ctx ri x ac
            (newRepositoryLoop env rc.ctx ri ac pre2
              ⟨w3, st.log ++ discoveryCalls rc ref ri (env.Domain ri.Name)⟩).2.world).1) ∧
      st'.log = st.log ++ discoveryCalls rc ref ri (env.Domain ri.Name)
        ++ handshakeCalls rc.ctx ri ac pre ++ [Call.NewV2Repository rc.ctx ri e ac] := by
  rw [newRepository_eq_loop env rc ref st ri w1 ac w2 endpoints w3 hri hac hep] at hsucc
  simp only [Prod.mk.injEq, Option.some.injEq] at hsucc
  obtain ⟨h1, h2⟩ := hsucc
  have hnone : (newRepositoryLoop env rc.ctx ri ac endpoints
      ⟨w3, st.log ++ discoveryCalls rc ref ri (env.Domain ri.Name)⟩).1.2 = none := by
    rw [h1]
  obtain ⟨pre, e, post, hsplit, hv, hpre, hacc, heq⟩ :=
    newRepositoryLoop_split_of_success env rc.ctx ri ac endpoints _ hnone
  refine ⟨pre, e, post, hsplit, hv, ?_, ?_, ?_⟩
  · rw [heq] at h1 h2
    simp only [Prod.mk.injEq, and_true] at h1
    obtain ⟨ha1, ha2⟩ := hacc
    rw [← h2]
    apply Prod.ext
    · apply Prod.ext
      · exact h1
      · apply Prod.ext
        · exact ha2
        · exact ha1
    · rfl
  · exact newRepositoryLoop_rejected_of_error env rc.ctx ri ac pre _ hpre
  · rw [heq] at h2
    rw [← h2]
    simp only
    rw [newRepositoryLoop_log_of_error env rc.ctx ri ac pre _ hpre]

/-- C4, evaluated on the concrete registry: for "docker.io" the v1 server is
skipped, the unreachable v2 server is rejected, the first confirming server is
selected and the mirror after it is not contacted. -/
theorem newRepository_returns_first_accepted_witness :
    RegistryClient.newRepository exEnv (some exClient) exAlpine exStart
        = (some (some 7, none),
            ⟨5, [Call.ParseRepositoryInfo exAlpine,
              Call.ResolveAuthConfig 2 1 "index.docker.io",
              Call.LookupPullEndpoints "docker.io",
              Call.NewV2Repository 2 exAlpineInfo ⟨"https://unreachable.docker.io", 2⟩ "anonymous",
              Call.NewV2Repository 2 exAlpineInfo ⟨"https://registry-1.docker.io", 2⟩
                "anonymous"]⟩)
      ∧ ∃ pre e post, exDockerEndpoints = pre ++ e :: post ∧ e.Version ≠ APIVersion1 ∧
        exEnv.NewV2Repository exClient.ctx exAlpineInfo e "anonymous"
            (newRepositoryLoop exEnv exClient.ctx exAlpineInfo "anonymous" pre
              ⟨3, exStart.log ++ discoveryCalls exClient exAlpine exAlpineInfo
                (exEnv.Domain exAlpineInfo.Name)⟩).2.world
          = ((some 7, true, none), 5) ∧
        (∀ pre2 x post2, pre = pre2 ++ x :: post2 →
          x.Version = APIVersion1 ∨
          ¬ Accepted (exEnv.NewV2Repository exClient.ctx exAlpineInfo x "anonymous"
              (newRepositoryLoop exEnv exClient.ctx exAlpineInfo "anonymous" pre2
                ⟨3, exStart.log ++ discoveryCalls exClient exAlpine exAlpineInfo
                  (exEnv.Domain exAlpineInfo.Name)⟩).2.world).1) ∧
        [Call.ParseRepositoryInfo exAlpine,
            Call.ResolveAuthConfig 2 1 "index.docker.io",
            Call.LookupPullEndpoints "docker.io",
            Call.NewV2Repository 2 exAlpineInfo ⟨"https://unreachable.docker.io", 2⟩ "anonymous",
            Call.NewV2Repository 2 exAlpineInfo ⟨"https://registry-1.docker.io", 2⟩ "anonymous"]
          = exStart.log ++ discoveryCalls exClient exAlpine exAlpineInfo
              (exEnv.Domain exAlpineInfo.Name)
            ++ handshakeCalls exClient.ctx exAlpineInfo "anonymous" pre
            ++ [Call.NewV2Repository exClient.ctx exAlpineInfo e "anonymous"] :=
  ⟨by decide,
    newRepository_returns_first_accepted exEnv exClient exAlpine exStart exAlpineInfo 1
      "anonymous" 2 exDockerEndpoints 3 rfl rfl rfl (some 7)
      ⟨5, [Call.ParseRepositoryInfo exAlpine,
        Call.ResolveAuthConfig 2 1 "index.docker.io",
        Call.LookupPullEndpoints "docker.io",
        Call.NewV2Repository 2 exAlpineInfo ⟨"https://unreachable.docker.io", 2⟩ "anonymous",
        Call.NewV2Repository 2 exAlpineInfo ⟨"https://registry-1.docker.io", 2⟩ "anonymous"]⟩
      (by decide)⟩

/-- C5: for every list of candidate endpoints, each of protocol version v1 or
v2 as in the data model, the loop of newRepository skips every endpoint whose
version is not v2.  Every call the loop makes is a handshake on an endpoint
of the list whose version is v2; no handshake is made on an endpoint whose
version is anything other than v2, in particular none on a v1 endpoint; and a
repository returned with a nil error was produced by an accepted handshake
on an endpoint of the list whose version is v2. -/
theorem newRepositoryLoop_skips_non_v2 (env : Env W) (ctx : Context) (ri : RepositoryInfo)
    (ac : AuthConfig) (l : List APIEndpoint) (st : St W)
    (hdom : ∀ e ∈ l, e.Version = APIVersion1 ∨ e.Version = APIVersion2) :
    ∃ calls, (newRepositoryLoop env ctx ri ac l st).2.log = st.log ++ calls ∧
      (∀ c ∈ calls, ∃ e ∈ l, e.Version = APIVersion2 ∧ c = Call.NewV2Repository ctx ri e ac) ∧
      (∀ e, e.Version ≠ APIVersion2 → Call.NewV2Repository ctx ri e ac ∉ calls) ∧
      (∀ e, e.Version = APIVersion1 → Call.NewV2Repository ctx ri e ac ∉ calls) ∧
      (∀ repository, (newRepositoryLoop env ctx ri ac l st).1 = (repository, none) →
        ∃ e ∈ l, e.Version = APIVersion2 ∧
          ∃ w, (env.NewV2Repository ctx ri e ac w).1 = (repository, true, none)) := by
  have hv2 : ∀ e ∈ l, e.Version ≠ APIVersion1 → e.Version = APIVersion2 := by
    intro e he hv
    rcases hdom e he with h | h
    · exact absurd h hv
    · exact h
  obtain ⟨calls, hlog, hcalls, hv1, hret⟩ := newRepositoryLoop_calls_not_v1 env ctx ri ac l st
  refine ⟨calls, hlog, ?_, ?_, hv1, ?_⟩
  · intro c hc
    obtain ⟨e, he, hv, hceq⟩ := hcalls c hc
    exact ⟨e, he, hv2 e he hv, hceq⟩
  · intro e hne hc
    obtain ⟨e2, he2, hne1, heq⟩ := hcalls _ hc
    simp only [Call.NewV2Repository.injEq, true_and, and_true] at heq
    rw [heq] at hne
    exact hne (hv2 e2 he2 hne1)
  · intro repository hres
    obtain ⟨e, he, hv, hw⟩ := hret repository hres
    exact ⟨e, he, hv2 e he hv, hw⟩

/-- C5, evaluated on the concrete registry: the endpoints of "docker.io" are
a v1 server followed by three v2 servers; the loop makes no call for the v1
server, handshakes the unreachable v2 server and then the first confirming
one, whose repository it returns. -/
theorem newRepositoryLoop_skips_non_v2_witness :
    (∀ e ∈ exDockerEndpoints, e.Version = APIVersion1 ∨ e.Version = APIVersion2)
      ∧ newRepositoryLoop exEnv 2 exAlpineInfo "anonymous" exDockerEndpoints exStart
        = ((some 7, none),
            ⟨2, [Call.NewV2Repository 2 exAlpineInfo ⟨"https://unreachable.docker.io", 2⟩
                "anonymous",
              Call.NewV2Repository 2 exAlpineInfo ⟨"https://registry-1.docker.io", 2⟩
                "anonymous"]⟩)
      ∧ ∃ calls, (newRepositoryLoop exEnv 2 exAlpineInfo "anonymous" exDockerEndpoints
          exStart).2.log = exStart.log ++ calls ∧
        (∀ c ∈ calls, ∃ e ∈ exDockerEndpoints, e.Version = APIVersion2 ∧
          c = Call.NewV2Repository 2 exAlpineInfo e "anonymous") ∧
        (∀ e, e.Version ≠ APIVersion2 →
          Call.NewV2Repository 2 exAlpineInfo e "anonymous" ∉ calls) ∧
        (∀ e, e.Version = APIVersion1 →
          Call.NewV2Repository 2 exAlpineInfo e "anonymous" ∉ calls) ∧
        (∀ repository, (newRepositoryLoop exEnv 2 exAlpineInfo "anonymous" exDockerEndpoints
            exStart).1 = (repository, none) →
          ∃ e ∈ exDockerEndpoints, e.Version = APIVersion2 ∧
            ∃ w, (exEnv.NewV2Repository 2 exAlpineInfo e "anonymous" w).1
              = (repository, true, none)) :=
  ⟨by decide, by decide,
    newRepositoryLoop_skips_non_v2 exEnv 2 exAlpineInfo "anonymous" exDockerEndpoints exStart
      (by decide)⟩

/-- C6: with a non-nil receiver and after repository-info parsing and endpoint
discovery have succeeded, newRepository returns (it does not panic), and it
returns a non-nil error if and only if every candidate endpoint is skipped as
v1 or has its handshake rejected in the world the loop had reached (an error,
or no error with confirmedV2 = false).  The error is then the aggregate error
"no V2 endpoint found" with a nil repository, whatever errors the handshakes
returned, and every endpoint other than v1 has been handshaked, in list order.
A rejected handshake makes the loop go on with the endpoints that follow. -/
theorem newRepository_fails_iff_no_endpoint_accepted (env : Env W) (rc : RegistryClient)
    (ref : Reference) (st : St W) (ri : RepositoryInfo) (w1 : W) (ac : AuthConfig) (w2 : W)
    (endpoints : List APIEndpoint) (w3 : W)
    (hri : env.ParseRepositoryInfo ref st.world = (Except.ok ri, w1))
    (hac : env.ResolveAuthConfig rc.ctx rc.dockerCli ri.Index w1 = (ac, w2))
    (hep : env.LookupPullEndpoints (env.Domain ri.Name) w2 = (Except.ok endpoints, w3)) :
    (∃ r, (RegistryClient.newRepository env (some rc) ref st).1 = some r) ∧
    ((∃ repository err, (RegistryClient.newRepository env (some rc) ref st).1
          = some (repository, some err)) ↔
      ∀ pre x post, endpoints = pre ++ x :: post →
        x.Version = APIVersion1 ∨
        ¬ Accepted (env.NewV2Repository rc.ctx ri x ac
            (newRepositoryLoop env rc.ctx ri ac pre
              ⟨w3, st.log ++ discoveryCalls rc ref ri (env.Domain ri.Name)⟩).2.world).1) ∧
    (∀ repository err, (RegistryClient.newRepository env (some rc) ref st).1
          = some (repository, some err) →
      repository = none ∧ err = errors.New "no V2 endpoint found" ∧
      (RegistryClient.newRepository env (some rc) ref st).2.log
        = st.log ++ discoveryCalls rc ref ri (env.Domain ri.Name)
          ++ handshakeCalls rc.ctx ri ac endpoints) ∧
    (∀ (e : APIEndpoint) (rest : List APIEndpoint) (st0 : St W),
      e.Version ≠ APIVersion1 →
      ¬ Accepted (env.NewV2Repository rc.ctx ri e ac st0.world).1 →
      newRepositoryLoop env rc.ctx ri ac (e :: rest) st0
        = newRepositoryLoop env rc.ctx ri ac rest
            ⟨(env.NewV2Repository rc.ctx ri e ac st0.world).2,
              st0.log ++ [Call.NewV2Repository rc.ctx ri e ac]⟩) := by
  have heq := newRepository_eq_loop env rc ref st ri w1 ac w2 endpoints w3 hri hac hep
  refine ⟨⟨_, by rw [heq]⟩, ⟨?_, ?_⟩, ?_, ?_⟩
  · rintro ⟨repository, err, h⟩
    rw [heq] at h
    simp only [Option.some.injEq] at h
    exact newRepositoryLoop_rejected_of_error env rc.ctx ri ac endpoints _ (by rw [h]; simp)
  · intro h
    have herr := newRepositoryLoop_error_of_rejected env rc.ctx ri ac endpoints _ h
    have hval := newRepositoryLoop_error_value env rc.ctx ri ac endpoints _ herr
    exact ⟨none, errors.New "no V2 endpoint found", by rw [heq]; simp only; rw [hval]⟩
  · intro repository err h
    rw [heq] at h ⊢
    simp only [Option.some.injEq] at h
    have herr : (newRepositoryLoop env rc.ctx ri ac endpoints
        ⟨w3, st.log ++ discoveryCalls rc ref ri (env.Domain ri.Name)⟩).1.2 ≠ none := by
      rw [h]; simp
    have hval := newRepositoryLoop_error_value env rc.ctx ri ac endpoints _ herr
    rw [h] at hval
    simp only [Prod.mk.injEq, Option.some.injEq] at hval
    exact ⟨hval.1, hval.2, newRepositoryLoop_log_of_error env rc.ctx ri ac endpoints _ herr⟩
  · intro e rest st0 hv ha
    exact newRepositoryLoop_cons_rejected env rc.ctx ri ac e rest st0 hv ha

/-- C6, evaluated on the concrete registry: for "silent.example.com" the first
endpoint's handshake errors and the second answers without confirming v2; the
second is still tried after the first failed, and the result is the aggregate
error, not the first endpoint's "connection refused". -/
theorem newRepository_fails_iff_no_endpoint_accepted_witness :
    RegistryClient.newRepository exEnv (some exClient) exSilent exStart
        = (some (none, some (errors.New "no V2 endpoint found")),
            ⟨5, [Call.ParseRepositoryInfo exSilent,
              Call.ResolveAuthConfig 2 1 "index.docker.io",
              Call.LookupPullEndpoints "silent.example.com",
              Call.NewV2Repository 2 ⟨exSilent, "index.docker.io"⟩
                ⟨"https://unreachable.example.com", 2⟩ "anonymous",
              Call.NewV2Repository 2 ⟨exSilent, "index.docker.io"⟩
                ⟨"https://silent.example.com", 2⟩ "anonymous"]⟩)
      ∧ ((∃ repository err,
            (RegistryClient.newRepository exEnv (some exClient) exSilent exStart).1
              = some (repository, some err)) ↔
          ∀ pre x post,
            [(⟨"https://unreachable.example.com", 2⟩ : APIEndpoint),
              ⟨"https://silent.example.com", 2⟩] = pre ++ x :: post →
            x.Version = APIVersion1 ∨
            ¬ Accepted (exEnv.NewV2Repository exClient.ctx ⟨exSilent, "index.docker.io"⟩ x
                "anonymous"
                (newRepositoryLoop exEnv exClient.ctx ⟨exSilent, "index.docker.io"⟩
                  "anonymous" pre
                  ⟨3, exStart.log ++ discoveryCalls exClient exSilent
                    ⟨exSilent, "index.docker.io"⟩
                    (exEnv.Domain exSilent)⟩).2.world).1) :=
  ⟨by decide,
    (newRepository_fails_iff_no_endpoint_accepted exEnv exClient exSilent exStart
      ⟨exSilent, "index.docker.io"⟩ 1 "anonymous" 2
      [⟨"https://unreachable.example.com", 2⟩, ⟨"https://silent.example.com", 2⟩] 3
      rfl rfl rfl).2.1⟩

/-- C9, as stated, fails: when discovery returns an empty list the error
newRepository returns is the "no V2 endpoint found" error, the very error it
returns when discovery returns endpoints none of which confirms v2. -/
theorem newRepository_empty_endpoints_same_error :
    exEnv.LookupPullEndpoints (exEnv.Domain exEmpty) 2 = (Except.ok [], 3)
      ∧ RegistryClient.newRepository exEnv (some exClient) exEmpty exStart
        = (some (none, some (errors.New "no V2 endpoint found")),
            ⟨3, [Call.ParseRepositoryInfo exEmpty,
              Call.ResolveAuthConfig 2 1 "index.docker.io",
              Call.LookupPullEndpoints "empty.example.com"]⟩)
      ∧ (RegistryClient.newRepository exEnv (some exClient) exEmpty exStart).1
        = (RegistryClient.newRepository exEnv (some exClient) exSilent exStart).1 :=
  ⟨rfl, by decide, by decide⟩

/-- C9, amended: with a non-nil receiver, when repository-info parsing
succeeds and endpoint discovery succeeds with an empty list, newRepository
makes no handshake and fails with the error "no V2 endpoint found" and a nil
repository; this is the same value the loop returns whenever it ends with an
error on a list of candidates, so the code has no separate no-endpoints
error. -/
theorem newRepository_empty_endpoints_no_v2_error (env : Env W) (rc : RegistryClient)
    (ref : Reference) (st : St W) (ri : RepositoryInfo) (w1 : W) (ac : AuthConfig) (w2 : W)
    (w3 : W)
    (hri : env.ParseRepositoryInfo ref st.world = (Except.ok ri, w1))
    (hac : env.ResolveAuthConfig rc.ctx rc.dockerCli ri.Index w1 = (ac, w2))
    (hep : env.LookupPullEndpoints (env.Domain ri.Name) w2 = (Except.ok [], w3)) :
    RegistryClient.newRepository env (some rc) ref st
        = (some (none, some (errors.New "no V2 endpoint found")),
            ⟨w3, st.log ++ discoveryCalls rc ref ri (env.Domain ri.Name)⟩)
      ∧ ∀ (l : List APIEndpoint) (st0 : St W),
          (newRepositoryLoop env rc.ctx ri ac l st0).1.2 ≠ none →
          some (newRepositoryLoop env rc.ctx ri ac l st0).1
            = (RegistryClient.newRepository env (some rc) ref st).1 := by
  have heq := newRepository_eq_loop env rc ref st ri w1 ac w2 [] w3 hri hac hep
  rw [newRepositoryLoop_nil] at heq
  refine ⟨heq, ?_⟩
  intro l st0 h
  rw [heq, newRepositoryLoop_error_value env rc.ctx ri ac l st0 h]

/-- C9, amended, on the concrete registry: "empty.example.com" has no endpoint. -/
theorem newRepository_empty_endpoints_no_v2_error_witness :
    RegistryClient.newRepository exEnv (some exClient) exEmpty exStart
        = (some (none, some (errors.New "no V2 endpoint found")),
            ⟨3, exStart.log ++ discoveryCalls exClient exEmpty ⟨exEmpty, "index.docker.io"⟩
              (exEnv.Domain exEmpty)⟩)
      ∧ ∀ (l : List APIEndpoint) (st0 : St Nat),
          (newRepositoryLoop exEnv exClient.ctx ⟨exEmpty, "index.docker.io"⟩ "anonymous"
            l st0).1.2 ≠ none →
          some (newRepositoryLoop exEnv exClient.ctx ⟨exEmpty, "index.docker.io"⟩ "anonymous"
            l st0).1
            = (RegistryClient.newRepository exEnv (some exClient) exEmpty exStart).1 :=
  newRepository_empty_endpoints_no_v2_error exEnv exClient exEmpty exStart
    ⟨exEmpty, "index.docker.io"⟩ 1 "anonymous" 2 3 rfl rfl rfl

/-- C7: the code at a session whose tag listing fails after a first page.  The
listing of "flaky.example.com/app" returns the tags read so far together with
an error, and GetTags returns both: a non-nil error with a non-empty, partial
tag list. -/
theorem GetTags_returns_partial_list_with_error :
    GetTags exEnv (some exClient) "flaky.example.com/app" exStart
      = (some (["1.0"], some (errors.New "unexpected EOF")),
          ⟨6, [Call.ParseNormalizedNamed "flaky.example.com/app",
            Call.ParseRepositoryInfo ⟨"flaky.example.com/app", none, none⟩,
            Call.ResolveAuthConfig 2 1 "index.docker.io",
            Call.LookupPullEndpoints "flaky.example.com",
            Call.NewV2Repository 2 ⟨⟨"flaky.example.com/app", none, none⟩, "index.docker.io"⟩
              ⟨"https://flaky.example.com", 2⟩ "anonymous",
            Call.TagsAll 9 2]⟩) := by
  decide

/-- C8: errors propagate unmodified.  For each of the four steps (reference
parsing, repository-info parsing, endpoint discovery, session query), when
the step is reached and returns an error e, GetTags and GetDigest return e
itself, the failing call is the last one in the log (no later step runs), and
GetDigest returns the zero digest with it.  Repository-info parsing and the
later steps are reached by GetTags for a reference without tag and a non-nil
package-level client, by GetDigest for a reference without digest. -/
theorem errors_propagate_unmodified (env : Env W)
    (registryClient recv : Option RegistryClient) (s : String) (st : St W) :
    (∀ e w1, env.ParseNormalizedNamed s st.world = (Except.error e, w1) →
      RegistryClient.GetTags env registryClient recv s st
          = (some ([], some e), ⟨w1, st.log ++ [Call.ParseNormalizedNamed s]⟩) ∧
      RegistryClient.GetDigest env registryClient recv s st
          = (some (nullDigest, some e), ⟨w1, st.log ++ [Call.ParseNormalizedNamed s]⟩)) ∧
    (∀ ref w1 e w2, env.ParseNormalizedNamed s st.world = (Except.ok ref, w1) →
      env.ParseRepositoryInfo ref w1 = (Except.error e, w2) →
      (ref.tag = none → ∀ rc, registryClient = some rc →
        RegistryClient.GetTags env registryClient recv s st
          = (some ([], some e),
              ⟨w2, st.log ++ [Call.ParseNormalizedNamed s, Call.ParseRepositoryInfo ref]⟩)) ∧
      (ref.digest = none →
        RegistryClient.GetDigest env registryClient recv s st
          = (some (nullDigest, some e),
              ⟨w2, st.log ++ [Call.ParseNormalizedNamed s, Call.ParseRepositoryInfo ref]⟩))) ∧
    (∀ ref w1 ri w2 rc ac w3 e w4,
      env.ParseNormalizedNamed s st.world = (Except.ok ref, w1) →
      env.ParseRepositoryInfo ref w1 = (Except.ok ri, w2) →
      registryClient = some rc →
      env.ResolveAuthConfig rc.ctx rc.dockerCli ri.Index w2 = (ac, w3) →
      env.LookupPullEndpoints (env.Domain ri.Name) w3 = (Except.error e, w4) →
      (ref.tag = none →
        RegistryClient.GetTags env registryClient recv s st
          = (some ([], some e),
              ⟨w4, st.log ++ Call.ParseNormalizedNamed s
                :: discoveryCalls rc ref ri (env.Domain ri.Name)⟩)) ∧
      (ref.digest = none →
        RegistryClient.GetDigest env registryClient recv s st
          = (some (nullDigest, some e),
              ⟨w4, st.log ++ Call.ParseNormalizedNamed s
                :: discoveryCalls rc ref ri (env.Domain ri.Name)⟩))) ∧
    (∀ ref w1 rc repository st2,
      env.ParseNormalizedNamed s st.world = (Except.ok ref, w1) →
      registryClient = some rc →
      RegistryClient.newRepository env registryClient ref
          ⟨w1, st.log ++ [Call.ParseNormalizedNamed s]⟩
        = (some (some repository, none), st2) →
      (ref.tag = none → ∀ tags e w3,
        env.TagsAll repository rc.ctx st2.world = ((tags, some e), w3) →
        RegistryClient.GetTags env registryClient recv s st
          = (some (tags, some e), ⟨w3, st2.log ++ [Call.TagsAll repository rc.ctx]⟩)) ∧
      (ref.digest = none → ∀ tag e w3,
        (ref.tag = some tag ∨ (ref.tag = none ∧ tag = "latest")) →
        env.TagsGet repository rc.ctx tag st2.world = (Except.error e, w3) →
        RegistryClient.GetDigest env registryClient recv s st
          = (some (nullDigest, some e),
              ⟨w3, st2.log ++ [Call.TagsGet repository rc.ctx tag]⟩))) := by
  refine ⟨?_, ?_, ?_, ?_⟩
  · intro e w1 hp
    constructor
    · simp [RegistryClient.GetTags, invoke, hp]
    · simp [RegistryClient.GetDigest, invoke, hp]
  · intro ref w1 e w2 hp hri
    constructor
    · intro htag rc hrc
      subst hrc
      simp [RegistryClient.GetTags, RegistryClient.newRepository, invoke, hp, htag, hri]
    · intro hdig
      simp [RegistryClient.GetDigest, RegistryClient.newRepository, invoke, hp, hdig, hri]
  · intro ref w1 ri w2 rc ac w3 e w4 hp hri hrc hac hep
    subst hrc
    constructor
    · intro htag
      simp [RegistryClient.GetTags, RegistryClient.newRepository, invoke, hp, htag, hri, hac,
        hep, discoveryCalls]
    · intro hdig
      simp [RegistryClient.GetDigest, RegistryClient.newRepository, invoke, hp, hdig, hri, hac,
        hep, discoveryCalls]
  · intro ref w1 rc repository st2 hp hrc hrepo
    subst hrc
    constructor
    · intro htag tags e w3 hq
      simp [RegistryClient.GetTags, invoke, hp, htag, hrepo, hq]
    · intro hdig tag e w3 htag hq
      have htag2 : (match ref.tag with
          | some t => t
          | none => "latest") = tag := by
        rcases htag with h | ⟨h, rfl⟩ <;> simp [h]
      simp [RegistryClient.GetDigest, invoke, hp, hdig, htag2, hrepo, hq]

/-- C8, evaluated on the concrete registry, one input per step: an unparsable
reference, a repository info that does not parse, a failing endpoint
discovery, a failing tag listing and a failing tag lookup. -/
theorem errors_propagate_unmodified_witness :
    (RegistryClient.GetTags exEnv (some exClient) (some exOtherClient) "UPPER" exStart
        = (some ([], some (errors.New "invalid reference format")),
            ⟨1, exStart.log ++ [Call.ParseNormalizedNamed "UPPER"]⟩) ∧
      RegistryClient.GetDigest exEnv (some exClient) (some exOtherClient) "UPPER" exStart
        = (some (nullDigest, some (errors.New "invalid reference format")),
            ⟨1, exStart.log ++ [Call.ParseNormalizedNamed "UPPER"]⟩)) ∧
    (RegistryClient.GetTags exEnv (some exClient) (some exOtherClient) "odd.example.com/app"
        exStart
        = (some ([], some (errors.New "invalid repository name")),
            ⟨2, exStart.log ++ [Call.ParseNormalizedNamed "odd.example.com/app",
              Call.ParseRepositoryInfo exOdd]⟩) ∧
      RegistryClient.GetDigest exEnv (some exClient) (some exOtherClient) "odd.example.com/app"
        exStart
        = (some (nullDigest, some (errors.New "invalid repository name")),
            ⟨2, exStart.log ++ [Call.ParseNormalizedNamed "odd.example.com/app",
              Call.ParseRepositoryInfo exOdd]⟩)) ∧
    (RegistryClient.GetTags exEnv (some exClient) (some exOtherClient) "down.example.com/app"
        exStart
        = (some ([], some (errors.New "lookup failed")),
            ⟨4, exStart.log ++ Call.ParseNormalizedNamed "down.example.com/app"
              :: discoveryCalls exClient exDown ⟨exDown, "index.docker.io"⟩
                (exEnv.Domain exDown)⟩) ∧
      RegistryClient.GetDigest exEnv (some exClient) (some exOtherClient)
        "down.example.com/app" exStart
        = (some (nullDigest, some (errors.New "lookup failed")),
            ⟨4, exStart.log ++ Call.ParseNormalizedNamed "down.example.com/app"
              :: discoveryCalls exClient exDown ⟨exDown, "index.docker.io"⟩
                (exEnv.Domain exDown)⟩)) ∧
    RegistryClient.GetTags exEnv (some exClient) (some exOtherClient) "flaky.example.com/app"
        exStart
      = (some (["1.0"], some (errors.New "unexpected EOF")),
          ⟨6, (RegistryClient.newRepository exEnv (some exClient) exFlaky
            ⟨1, exStart.log ++ [Call.ParseNormalizedNamed "flaky.example.com/app"]⟩).2.log
            ++ [Call.TagsAll 9 exClient.ctx]⟩) ∧
    RegistryClient.GetDigest exEnv (some exClient) (some exOtherClient) "library/alpine:1.0"
        exStart
      = (some (nullDigest, some (errors.New "manifest unknown")),
          ⟨7, (RegistryClient.newRepository exEnv (some exClient) exAlpineTagged
            ⟨1, exStart.log ++ [Call.ParseNormalizedNamed "library/alpine:1.0"]⟩).2.log
            ++ [Call.TagsGet 7 exClient.ctx "1.0"]⟩) :=
  ⟨(errors_propagate_unmodified exEnv (some exClient) (some exOtherClient) "UPPER"
      exStart).1 (errors.New "invalid reference format") 1 rfl,
    ⟨((errors_propagate_unmodified exEnv (some exClient) (some exOtherClient)
        "odd.example.com/app" exStart).2.1 exOdd 1 (errors.New "invalid repository name") 2
        rfl rfl).1 rfl exClient rfl,
      ((errors_propagate_unmodified exEnv (some exClient) (some exOtherClient)
        "odd.example.com/app" exStart).2.1 exOdd 1 (errors.New "invalid repository name") 2
        rfl rfl).2 rfl⟩,
    ⟨((errors_propagate_unmodified exEnv (some exClient) (some exOtherClient)
        "down.example.com/app" exStart).2.2.1 exDown 1 ⟨exDown, "index.docker.io"⟩ 2 exClient
        "anonymous" 3 (errors.New "lookup failed") 4 rfl rfl rfl rfl rfl).1 rfl,
      ((errors_propagate_unmodified exEnv (some exClient) (some exOtherClient)
        "down.example.com/app" exStart).2.2.1 exDown 1 ⟨exDown, "index.docker.io"⟩ 2 exClient
        "anonymous" 3 (errors.New "lookup failed") 4 rfl rfl rfl rfl rfl).2 rfl⟩,
    ((errors_propagate_unmodified exEnv (some exClient) (some exOtherClient)
      "flaky.example.com/app" exStart).2.2.2 exFlaky 1 exClient 9
      (RegistryClient.newRepository exEnv (some exClient) exFlaky
        ⟨1, exStart.log ++ [Call.ParseNormalizedNamed "flaky.example.com/app"]⟩).2
      rfl rfl (by decide)).1 rfl ["1.0"] (errors.New "unexpected EOF") 6 rfl,
    ((errors_propagate_unmodified exEnv (some exClient) (some exOtherClient)
      "library/alpine:1.0" exStart).2.2.2 exAlpineTagged 1 exClient 7
      (RegistryClient.newRepository exEnv (some exClient) exAlpineTagged
        ⟨1, exStart.log ++ [Call.ParseNormalizedNamed "library/alpine:1.0"]⟩).2
      rfl rfl (by decide)).2 rfl "1.0" (errors.New "manifest unknown") 7 (Or.inl rfl) rfl⟩

/-- C10: the methods ignore their receiver.  For every receiver, every
package-level client (nil included), every input string and every state,
the GetTags and GetDigest methods return what the package-level functions
return, with the same log and world; and with a non-nil package-level client
every call made carries the context and docker client of the package-level
client, never those of the receiver. -/
theorem methods_ignore_receiver (env : Env W) (registryClient recv : Option RegistryClient)
    (s : String) (st : St W) :
    RegistryClient.GetTags env registryClient recv s st = GetTags env registryClient s st ∧
    RegistryClient.GetDigest env registryClient recv s st
      = GetDigest env registryClient s st ∧
    (∃ calls, (RegistryClient.GetTags env registryClient recv s st).2.log = st.log ++ calls ∧
      ∀ c ∈ calls, ∀ rc, registryClient = some rc → c.UsesClient rc) ∧
    (∃ calls, (RegistryClient.GetDigest env registryClient recv s st).2.log
        = st.log ++ calls ∧
      ∀ c ∈ calls, ∀ rc, registryClient = some rc → c.UsesClient rc) :=
  ⟨rfl, rfl, GetTags_log env registryClient recv s st,
    GetDigest_log env registryClient recv s st⟩

/-- C10, evaluated on the concrete registry: a receiver holding docker client 5
and context 6 gives the results of the package-level functions, whose calls
carry docker client 1 and context 2 of the package-level client. -/
theorem methods_ignore_receiver_witness :
    (RegistryClient.GetTags exEnv (some exClient) (some exOtherClient) "library/alpine" exStart
        = GetTags exEnv (some exClient) "library/alpine" exStart ∧
      RegistryClient.GetDigest exEnv (some exClient) (some exOtherClient) "library/alpine"
          exStart
        = GetDigest exEnv (some exClient) "library/alpine" exStart) ∧
    GetTags exEnv (some exClient) "library/alpine" exStart
      = (some (["1.0", "3.18", "latest"], none),
          ⟨7, [Call.ParseNormalizedNamed "library/alpine",
            Call.ParseRepositoryInfo exAlpine,
            Call.ResolveAuthConfig 2 1 "index.docker.io",
            Call.LookupPullEndpoints "docker.io",
            Call.NewV2Repository 2 exAlpineInfo ⟨"https://unreachable.docker.io", 2⟩ "anonymous",
            Call.NewV2Repository 2 exAlpineInfo ⟨"https://registry-1.docker.io", 2⟩ "anonymous",
            Call.TagsAll 7 2]⟩) :=
  ⟨⟨(methods_ignore_receiver exEnv (some exClient) (some exOtherClient) "library/alpine"
      exStart).1,
    (methods_ignore_receiver exEnv (some exClient) (some exOtherClient) "library/alpine"
      exStart).2.1⟩, by decide⟩

end Claims

end Dfresh
